import Mathlib

/-!
Verification of the gesture-interpretation and motion-control core of the
BumpTop WebXR desktop.

Shallow embedding of:
* `src/input/GestureInterpreter.ts` (pointer-event state machine),
* `src/input/PointerVelocityTracker.ts` (throw-velocity estimator,
  current weighted iteration),
* `src/hooks/useGestures.ts`, document `useDraggableObject` (unified
  drag/throw hook) together with `useDraggableStore` (the exclusive
  manipulation lock),
* the `BoundaryEnforcer` component of `src/app/ARMode.tsx`.

Screen coordinates, world coordinates and timestamps are modelled as exact
rationals (or reals where the source computes square roots and exponentials);
`performance.now()` is modelled by passing the current time `now` explicitly
to each event handler.
-/

namespace BumpTop

/-! ### Gesture state machine (`src/input/GestureInterpreter.ts`)

The interpreter keeps a JS `Map` of currently pressed pointers.  We model the
map as a list in insertion order: `Map.set` replaces an existing entry in
place or appends a new one, `Map.delete` removes entries with the given key,
`Map.get` looks the key up, `Map.size` is the length. -/

inductive GestureState
  | idle
  | pressing
  | dragging
  | pinching
  | released
deriving DecidableEq, Repr

structure PointerInfo where
  id : Nat
  x : ℚ
  y : ℚ
  timestamp : ℚ
deriving DecidableEq, Repr

structure GestureConfig where
  tapMaxMs : ℚ
  doubleTapMaxMs : ℚ
  dragStartPx : ℚ
deriving DecidableEq, Repr

/-- The `DEFAULT_CONFIG` of `GestureInterpreter.ts` (the fields the state machine
itself reads). -/
def defaultConfig : GestureConfig :=
  { tapMaxMs := 220, doubleTapMaxMs := 300, dragStartPx := 8 }

def mapHas (l : List PointerInfo) (pid : Nat) : Bool :=
  l.any (fun p => p.id == pid)

def mapSet (l : List PointerInfo) (p : PointerInfo) : List PointerInfo :=
  if mapHas l p.id then l.map (fun q => if q.id == p.id then p else q)
  else l ++ [p]

def mapGet (l : List PointerInfo) (pid : Nat) : Option PointerInfo :=
  l.find? (fun p => p.id == pid)

def mapDelete (l : List PointerInfo) (pid : Nat) : List PointerInfo :=
  l.filter (fun p => p.id != pid)

/-- The mutable fields of a `GestureInterpreter` instance. -/
structure Interp where
  state : GestureState
  pointers : List PointerInfo
  pressStartTime : ℚ
  pressStartX : ℚ
  pressStartY : ℚ
  lastTapTime : ℚ
  isDragging : Bool
deriving DecidableEq, Repr

/-- Freshly constructed `GestureInterpreter`. -/
def initInterp : Interp :=
  { state := .idle, pointers := [], pressStartTime := 0, pressStartX := 0
    pressStartY := 0, lastTapTime := 0, isDragging := false }

/-- Model of `GestureInterpreter.onPointerDown`.  The pointer is stored (replacing any
entry with the same id), then the press/pinch classification runs on the new
pointer count. -/
def onPointerDown (now : ℚ) (pid : Nat) (x y : ℚ) (s : Interp) : Interp :=
  let ps := mapSet s.pointers ⟨pid, x, y, now⟩
  if ps.length = 1 then
    { s with pointers := ps, state := .pressing, pressStartTime := now,
             pressStartX := x, pressStartY := y, isDragging := false }
  else if ps.length = 2 then
    { s with pointers := ps, state := .pinching, isDragging := false }
  else
    { s with pointers := ps }

/-- Model of `GestureInterpreter.onPointerMove`.  Unknown pointer ids are ignored.  The
source compares `Math.sqrt(dx*dx + dy*dy) > dragStartPx`; both sides being
nonnegative, we compare the squares, which is exactly equivalent and keeps the
model inside `ℚ`. -/
def onPointerMove (c : GestureConfig) (now : ℚ) (pid : Nat) (x y : ℚ)
    (s : Interp) : Interp :=
  match mapGet s.pointers pid with
  | none => s
  | some _ =>
    let s1 := { s with pointers := mapSet s.pointers ⟨pid, x, y, now⟩ }
    if s1.state = .pressing ∧ s1.isDragging = false then
      let dx := x - s1.pressStartX
      let dy := y - s1.pressStartY
      if dx * dx + dy * dy > c.dragStartPx * c.dragStartPx then
        { s1 with state := .dragging, isDragging := true }
      else s1
    else s1

/-- Model of `GestureInterpreter.onPointerUp`.  Unknown pointer ids are ignored.  Note
that the source inspects `this.pointers.size` in the `pinching` branch
**before** deleting the lifted pointer. -/
def onPointerUp (c : GestureConfig) (now : ℚ) (pid : Nat) (s : Interp) :
    Interp :=
  match mapGet s.pointers pid with
  | none => s
  | some _ =>
    let pressDuration := now - s.pressStartTime
    let s1 : Interp :=
      if s.state = .dragging then
        { s with state := .released, isDragging := false }
      else if s.state = .pressing ∧ pressDuration < c.tapMaxMs then
        let lastTap := if now - s.lastTapTime < c.doubleTapMaxMs then 0 else now
        { s with state := .idle, isDragging := false, lastTapTime := lastTap }
      else if s.state = .pinching then
        (if s.pointers.length = 1 then { s with state := .idle } else s)
      else
        { s with state := .idle, isDragging := false }
    let s2 := { s1 with pointers := mapDelete s1.pointers pid }
    if s2.pointers.length = 0 then
      { s2 with state := .idle, isDragging := false }
    else s2

/-- Model of `GestureInterpreter.onPointerCancel`: drop the pointer and reset to idle
once no pointers remain. -/
def onPointerCancel (pid : Nat) (s : Interp) : Interp :=
  let s1 := { s with pointers := mapDelete s.pointers pid }
  if s1.pointers.length = 0 then
    { s1 with state := .idle, isDragging := false }
  else s1

/-! ### Claims C6 and C7: state-machine behaviour on pointer-up and anomalous
input -/

/-- Concrete pinch session: pointer 1 down at t=0, pointer 2 down at t=1
(state `pinching`), then pointer 1 lifts at t=50 while both pointers are still
tracked. -/
def pinchRun : Interp :=
  onPointerUp defaultConfig 50 1
    (onPointerDown 1 2 10 0 (onPointerDown 0 1 0 0 initInterp))

/-- C6 counterexample: lifting one of two pointers during `pinching` leaves
the machine in `pinching` (with one tracked pointer), not `idle` — the source
checks `this.pointers.size === 1` before deleting the lifted pointer, so with
two pointers down the check fails. -/
theorem pinch_single_up_not_idle :
    pinchRun.state = GestureState.pinching ∧
    ¬ pinchRun.state = GestureState.idle ∧
    pinchRun.pointers.length = 1 := by decide

/-- C6 (amended): in the `pinching` state, a pointer-up with a second pointer
still down leaves the machine in `pinching`; only the pointer-up that removes
the last tracked pointer returns the machine to `idle` (never to
`pressing`). -/
theorem pinch_up_transitions :
    (∀ (c : GestureConfig) (s : Interp) (now : ℚ) (p q : PointerInfo)
       (pid : Nat),
       s.state = GestureState.pinching → s.pointers = [p, q] → p.id ≠ q.id →
       (pid = p.id ∨ pid = q.id) →
       (onPointerUp c now pid s).state = GestureState.pinching ∧
       (onPointerUp c now pid s).pointers.length = 1) ∧
    (∀ (c : GestureConfig) (s : Interp) (now : ℚ) (p : PointerInfo),
       s.state = GestureState.pinching → s.pointers = [p] →
       (onPointerUp c now p.id s).state = GestureState.idle) := by
  constructor
  · intro c s now p q pid hstate hptr hne hpid
    rcases hpid with hpid | hpid
    · subst hpid
      simp [onPointerUp, mapGet, mapDelete, hptr, hstate, List.find?, hne,
        Ne.symm hne]
    · subst hpid
      simp [onPointerUp, mapGet, mapDelete, hptr, hstate, List.find?, hne,
        Ne.symm hne]
  · intro c s now p hstate hptr
    simp [onPointerUp, mapGet, mapDelete, hptr, hstate, List.find?]

/-- C6 amended-claim witness: the hypotheses hold and the conclusion follows
at a concrete pinch state. -/
theorem pinch_up_transitions_witness :
    ((⟨.pinching, [⟨1, 0, 0, 0⟩, ⟨2, 10, 0, 1⟩], 0, 0, 0, 0, false⟩ :
        Interp).state = GestureState.pinching ∧
      (1 : Nat) ≠ 2) ∧
    (onPointerUp defaultConfig 50 1
        ⟨.pinching, [⟨1, 0, 0, 0⟩, ⟨2, 10, 0, 1⟩], 0, 0, 0, 0,
          false⟩).state = GestureState.pinching ∧
    (onPointerUp defaultConfig 50 1
        ⟨.pinching, [⟨1, 0, 0, 0⟩, ⟨2, 10, 0, 1⟩], 0, 0, 0, 0,
          false⟩).pointers.length = 1 :=
  ⟨⟨by decide, by decide⟩,
    pinch_up_transitions.1 defaultConfig
      ⟨.pinching, [⟨1, 0, 0, 0⟩, ⟨2, 10, 0, 1⟩], 0, 0, 0, 0, false⟩ 50
      ⟨1, 0, 0, 0⟩ ⟨2, 10, 0, 1⟩ 1 (by decide) (by decide) (by decide)
      (Or.inl (by decide))⟩

/-- Concrete anomalous session: pointer 1 down at t=0 at (0,0), then a
duplicate pointer-down for the already-tracked id 1 at t=10 at (5,5). -/
def dupRun : Interp := onPointerDown 10 1 5 5 (onPointerDown 0 1 0 0 initInterp)

/-- C7 counterexample: a duplicate pointer-down for an already-tracked id is
not ignored — it restarts the press, changing the press-start time and
position (here from t=0,(0,0) to t=10,(5,5)). -/
theorem duplicate_pointer_down_changes_state :
    dupRun.pressStartTime = 10 ∧ dupRun.pressStartX = 5 ∧
    dupRun.pressStartY = 5 ∧
    ¬ dupRun = onPointerDown 0 1 0 0 initInterp := by decide

/-- C7 (amended): a pointer-move or pointer-up carrying an untracked pointer
id is silently ignored (the machine state is completely unchanged and no
error is raised — the handlers are total).  A duplicate pointer-down for the
single tracked pointer is instead processed as a fresh press: it overwrites
the stored pointer entry and re-enters `pressing` with a new press-start time
and position and a cleared dragging flag. -/
theorem input_anomaly_handling :
    (∀ (c : GestureConfig) (now : ℚ) (pid : Nat) (x y : ℚ) (s : Interp),
       mapGet s.pointers pid = none → onPointerMove c now pid x y s = s) ∧
    (∀ (c : GestureConfig) (now : ℚ) (pid : Nat) (s : Interp),
       mapGet s.pointers pid = none → onPointerUp c now pid s = s) ∧
    (∀ (now : ℚ) (pid : Nat) (x y : ℚ) (s : Interp) (p : PointerInfo),
       s.pointers = [p] → p.id = pid →
       (onPointerDown now pid x y s).state = GestureState.pressing ∧
       (onPointerDown now pid x y s).pressStartTime = now ∧
       (onPointerDown now pid x y s).pressStartX = x ∧
       (onPointerDown now pid x y s).pressStartY = y ∧
       (onPointerDown now pid x y s).isDragging = false ∧
       (onPointerDown now pid x y s).pointers = [⟨pid, x, y, now⟩]) := by
  refine ⟨?_, ?_, ?_⟩
  · intro c now pid x y s h
    simp [onPointerMove, h]
  · intro c now pid s h
    simp [onPointerUp, h]
  · intro now pid x y s p hptr hpid
    subst hpid
    simp [onPointerDown, mapSet, mapHas, hptr]

/-- C7 amended-claim witness: concrete instances of all three behaviours. -/
theorem input_anomaly_handling_witness :
    (mapGet initInterp.pointers 3 = none ∧
      onPointerMove defaultConfig 5 3 1 1 initInterp = initInterp) ∧
    (onPointerUp defaultConfig 5 3 initInterp = initInterp) ∧
    ((⟨.pressing, [⟨1, 0, 0, 0⟩], 0, 0, 0, 0, false⟩ :
        Interp).pointers = [⟨1, 0, 0, 0⟩] ∧
      (onPointerDown 10 1 5 5
          ⟨.pressing, [⟨1, 0, 0, 0⟩], 0, 0, 0, 0, false⟩).state =
        GestureState.pressing ∧
      (onPointerDown 10 1 5 5
          ⟨.pressing, [⟨1, 0, 0, 0⟩], 0, 0, 0, 0, false⟩).pressStartTime =
        10) :=
  ⟨⟨by decide,
      input_anomaly_handling.1 defaultConfig 5 3 1 1 initInterp (by decide)⟩,
    input_anomaly_handling.2.1 defaultConfig 5 3 initInterp (by decide),
    by decide,
    (input_anomaly_handling.2.2 10 1 5 5
        ⟨.pressing, [⟨1, 0, 0, 0⟩], 0, 0, 0, 0, false⟩ ⟨1, 0, 0, 0⟩
        (by decide) (by decide)).1,
    (input_anomaly_handling.2.2 10 1 5 5
        ⟨.pressing, [⟨1, 0, 0, 0⟩], 0, 0, 0, 0, false⟩ ⟨1, 0, 0, 0⟩
        (by decide) (by decide)).2.1⟩

/-! ### Unified draggable-object hook (`useDraggableObject` in
`src/hooks/useGestures.ts`) and the manipulation lock (`useDraggableStore`)

Each draggable object owns one `GestureInterpreter` instance and one physics
body; all objects share the `useDraggableStore` state, whose
`draggingObjectId` is the exclusive manipulation lock.  A handler invocation
for object `oid` reads the shared store and that object's own state; the
rigid-body reference is assumed present (as in a mounted component).  The
velocity tracker and the throw impulse computed on release are modelled
separately below (`releaseThrow`); they do not affect lock or body state. -/

inductive BodyType
  | dynamic
  | kinematic
deriving DecidableEq, Repr

inductive DraggableObjectType
  | file
  | content
deriving DecidableEq, Repr

/-- The drag-related fields of `useDraggableStore`. -/
structure DraggableStore where
  isDragging : Bool
  draggingObjectId : Option String
  draggingObjectType : Option DraggableObjectType
deriving DecidableEq, Repr

/-- Model of `useDraggableStore.setDragging`: the id and type are kept only while
`isDragging` is true (the store nulls them out on release). -/
def setDragging (b : Bool) (oid : Option String)
    (oty : Option DraggableObjectType) : DraggableStore :=
  { isDragging := b,
    draggingObjectId := if b then oid else none,
    draggingObjectType := if b then oty else none }

/-- Per-object state owned by one `useDraggableObject` hook instance. -/
structure ObjectState where
  gi : Interp
  bodyType : BodyType
deriving DecidableEq, Repr

/-- Shared store plus the state of the object whose handler is running. -/
abbrev DragWorld := DraggableStore × ObjectState

/-- Model of `useDraggableObject.handlePointerDown` for object `oid`: if another
object holds the lock the event is swallowed before anything happens;
otherwise the gesture machine sees the pointer, the lock is taken and the
body is switched to kinematic mode. -/
def handlePointerDown (oid : String) (oty : DraggableObjectType) (now : ℚ)
    (pid : Nat) (x y : ℚ) (w : DragWorld) : DragWorld :=
  let (st, d) := w
  if st.draggingObjectId ≠ none ∧ st.draggingObjectId ≠ some oid then (st, d)
  else
    (setDragging true (some oid) (some oty),
      { gi := onPointerDown now pid x y d.gi, bodyType := .kinematic })

/-- Model of `useDraggableObject.handlePointerUp` for object `oid`: the lock is
released only when the gesture was a drag (`wasDragging`); the body is
switched back to dynamic unconditionally.  The throw impulse computed in the
`wasDragging` branch is modelled by `releaseThrow` below. -/
def handlePointerUp (c : GestureConfig) (oid : String) (now : ℚ) (pid : Nat)
    (w : DragWorld) : DragWorld :=
  let (st, d) := w
  if st.draggingObjectId ≠ none ∧ st.draggingObjectId ≠ some oid then (st, d)
  else
    let wasDragging := d.gi.isDragging
    let st' := if wasDragging then setDragging false none none else st
    (st', { gi := onPointerUp c now pid d.gi, bodyType := .dynamic })

/-- Model of `useDraggableObject.handlePointerCancel` for object `oid`: the lock is
released unconditionally and the body returns to dynamic mode. -/
def handlePointerCancel (oid : String) (pid : Nat) (w : DragWorld) :
    DragWorld :=
  let (st, d) := w
  if st.draggingObjectId ≠ none ∧ st.draggingObjectId ≠ some oid then (st, d)
  else
    (setDragging false none none,
      { gi := onPointerCancel pid d.gi, bodyType := .dynamic })

/-- Model of `useDraggableObject.handlePointerLeave`: identical effect to a cancel
(the source treats the pointer leaving the surface as a cancel event). -/
def handlePointerLeave (oid : String) (pid : Nat) (w : DragWorld) :
    DragWorld :=
  handlePointerCancel oid pid w

/-- Fresh world: lock free, interpreter idle, body dynamic. -/
def initWorld : DragWorld :=
  (⟨false, none, none⟩, ⟨initInterp, .dynamic⟩)

/-! ### Claim C1: lock release on every terminal path -/

/-- Tap session on object `"a"`: pointer-down at t=0 (acquires the lock),
pointer-up at t=100 with no intervening movement — a tap, which never enters
the `dragging` state. -/
def tapWorld : DragWorld :=
  handlePointerUp defaultConfig "a" 100 1
    (handlePointerDown "a" .file 0 1 0 0 initWorld)

/-- C1 failing run: after a tap session all pointers have lifted and the
gesture machine is idle, yet `draggingObjectId` is still `"a"` — the lock was
acquired by the pointer-down but `handlePointerUp` releases it only when
`wasDragging` is true, so the tap path leaks the lock.  Consequently a later
pointer-down on a different object `"b"` is swallowed: interaction stays
frozen.  This contradicts the release-on-every-terminal-path invariant the
source's own comments aim for (pointer-down "disables OrbitControls" always,
pointer-up "re-enables" them only after a drag). -/
theorem tap_leaves_lock_held :
    tapWorld.2.gi.pointers = [] ∧
    tapWorld.2.gi.state = GestureState.idle ∧
    tapWorld.1.draggingObjectId = some "a" ∧
    tapWorld.1.isDragging = true ∧
    handlePointerDown "b" .file 200 2 0 0 (tapWorld.1, ⟨initInterp, .dynamic⟩)
      = (tapWorld.1, ⟨initInterp, .dynamic⟩) := by
  with_unfolding_all decide

/-! ### Claim C2: lock exclusivity -/

/-- C2: while object `a` holds the lock, a pointer-down on a different object
`b` is a complete no-op (store, gesture machine and body of `b` are all
unchanged, so `b` never leaves idle and is never made kinematic); and once
`a` releases the lock by finishing its drag, a pointer-down on `b` acquires
the lock for `b`. -/
theorem lock_exclusivity :
    ∀ (st : DraggableStore) (dA dB : ObjectState) (a b : String)
      (oty : DraggableObjectType) (t1 t2 t3 : ℚ) (p1 p2 : Nat) (x y : ℚ),
      st.draggingObjectId = some a → a ≠ b →
      handlePointerDown b oty t1 p1 x y (st, dB) = (st, dB) ∧
      (dA.gi.isDragging = true →
        (handlePointerDown b oty t3 p2 x y
            ((handlePointerUp defaultConfig a t2 p1 (st, dA)).1,
              dB)).1.draggingObjectId = some b) := by
  intro st dA dB a b oty t1 t2 t3 p1 p2 x y hown hne
  constructor
  · have hguard : st.draggingObjectId ≠ none ∧
        st.draggingObjectId ≠ some b := by
      rw [hown]
      exact ⟨by simp, by simp [hne]⟩
    simp [handlePointerDown, hguard]
  · intro hdrag
    have hrel : (handlePointerUp defaultConfig a t2 p1
        (st, dA)).1.draggingObjectId = none := by
      simp [handlePointerUp, hown, hdrag, setDragging]
    simp [handlePointerDown, hrel, setDragging]

/-- C2 witness: concrete locked store, a dragging state for `"a"`, and a
fresh object `"b"`. -/
theorem lock_exclusivity_witness :
    ((⟨true, some "a", some .file⟩ : DraggableStore).draggingObjectId
        = some "a" ∧ "a" ≠ "b") ∧
    (handlePointerDown "b" .file 5 2 0 0
        (⟨true, some "a", some .file⟩,
          ⟨initInterp, .dynamic⟩) =
      (⟨true, some "a", some .file⟩, ⟨initInterp, .dynamic⟩) ∧
      ((⟨⟨.dragging, [⟨1, 0, 0, 0⟩], 0, 0, 0, 0, true⟩, .kinematic⟩ :
          ObjectState).gi.isDragging = true →
        (handlePointerDown "b" .file 7 2 0 0
            ((handlePointerUp defaultConfig "a" 6 1
                (⟨true, some "a", some .file⟩,
                  ⟨⟨.dragging, [⟨1, 0, 0, 0⟩], 0, 0, 0, 0, true⟩,
                    .kinematic⟩)).1,
              ⟨initInterp, .dynamic⟩)).1.draggingObjectId = some "b")) :=
  ⟨⟨by decide, by decide⟩,
    lock_exclusivity ⟨true, some "a", some .file⟩
      ⟨⟨.dragging, [⟨1, 0, 0, 0⟩], 0, 0, 0, 0, true⟩, .kinematic⟩
      ⟨initInterp, .dynamic⟩ "a" "b" .file 5 6 7 1 2 0 0 (by decide)
      (by decide)⟩

/-! ### Boundary enforcement (`BoundaryEnforcer` in `src/app/ARMode.tsx`)

Every ~16 ms the enforcer walks all tracked file and content bodies and,
per horizontal axis, clamps positions to `halfExtent - margin` and reflects
the velocity of every axis whose position was actually changed.  File bodies
use margin 0.04, content bodies 0.1; the restitution factor is 0.5.  The
per-body step below is the loop body, parametric in the margin. -/

structure Vec3Q where
  x : ℚ
  y : ℚ
  z : ℚ
deriving DecidableEq, Repr

/-- A rigid body as the enforcer sees it: translation and linear velocity. -/
structure BodyState where
  pos : Vec3Q
  vel : Vec3Q
deriving DecidableEq, Repr

def bounceRestitution : ℚ := 1 / 2

def fileMargin : ℚ := 1 / 25

def contentMargin : ℚ := 1 / 10

/-- The per-axis correction the enforcer computes (the source repeats this
if/else-if block verbatim for each axis). -/
def correctedCoord (lo hi p : ℚ) : ℚ :=
  if p < lo then lo else if p > hi then hi else p

/-- One `BoundaryEnforcer` pass over a single body: clamp X and Z to the
region inset by `margin`, and if any clamp fired (`needsCorrection`, set by
the source exactly when one of the four if/else-if branches ran), write the
clamped position back and replace the velocity component of each axis whose
position actually changed by `-v * bounceRestitution` (Y and unclamped axes
keep their velocity). -/
def enforceBody (halfWidth halfHeight margin : ℚ) (b : BodyState) :
    BodyState :=
  let newX := correctedCoord (-halfWidth + margin) (halfWidth - margin) b.pos.x
  let newZ :=
    correctedCoord (-halfHeight + margin) (halfHeight - margin) b.pos.z
  let needsCorrection :=
    (b.pos.x < -halfWidth + margin ∨ b.pos.x > halfWidth - margin) ∨
    (b.pos.z < -halfHeight + margin ∨ b.pos.z > halfHeight - margin)
  if needsCorrection then
    { pos := ⟨newX, b.pos.y, newZ⟩,
      vel := ⟨if b.pos.x ≠ newX then -b.vel.x * bounceRestitution else b.vel.x,
              b.vel.y,
              if b.pos.z ≠ newZ then -b.vel.z * bounceRestitution
              else b.vel.z⟩ }
  else b

/-- One full enforcement pass: the loop over every tracked file body (margin
0.04) and every tracked content body (margin 0.1). -/
def enforcePass (halfWidth halfHeight : ℚ)
    (fileBodies contentBodies : List BodyState) :
    List BodyState × List BodyState :=
  (fileBodies.map (enforceBody halfWidth halfHeight fileMargin),
    contentBodies.map (enforceBody halfWidth halfHeight contentMargin))

/-- Characterization of the per-axis if/else-if correction as a clamp. -/
theorem correctedCoord_eq_clamp (lo hi p : ℚ) (h : lo ≤ hi) :
    correctedCoord lo hi p = max lo (min hi p) := by
  unfold correctedCoord
  split_ifs with h1 h2
  · rw [min_eq_right (by linarith), max_eq_left (by linarith)]
  · rw [min_eq_left (by linarith), max_eq_right (by linarith)]
  · rw [min_eq_right (by linarith), max_eq_right (by linarith)]

/-- The per-axis correction moves the coordinate exactly when it was out of
bounds. -/
theorem correctedCoord_ne (lo hi p : ℚ) (h : lo ≤ hi) :
    (p < lo ∨ p > hi → p ≠ correctedCoord lo hi p) ∧
    (¬(p < lo ∨ p > hi) → correctedCoord lo hi p = p) := by
  unfold correctedCoord
  constructor
  · rintro (h1 | h1)
    · rw [if_pos h1]; exact ne_of_lt h1
    · rw [if_neg (by linarith), if_pos h1]; exact ne_of_gt h1
  · intro h1
    push_neg at h1
    rw [if_neg (by linarith [h1.1]), if_neg (by linarith [h1.2])]

/-- C5: one enforcement pass clamps each horizontal coordinate into
`[-halfExtent + margin, halfExtent - margin]`, replaces a clamped axis's
velocity component `v` by `-v * 0.5`, leaves the velocity of an unclamped
axis unchanged, and never touches the Y components. -/
theorem boundary_clamp_and_bounce :
    ∀ (hw hh m : ℚ) (b : BodyState), m ≤ hw → m ≤ hh →
      (enforceBody hw hh m b).pos.x = max (-hw + m) (min (hw - m) b.pos.x) ∧
      (enforceBody hw hh m b).pos.z = max (-hh + m) (min (hh - m) b.pos.z) ∧
      (enforceBody hw hh m b).pos.y = b.pos.y ∧
      (enforceBody hw hh m b).vel.x =
        (if b.pos.x < -hw + m ∨ b.pos.x > hw - m
         then -b.vel.x * bounceRestitution else b.vel.x) ∧
      (enforceBody hw hh m b).vel.z =
        (if b.pos.z < -hh + m ∨ b.pos.z > hh - m
         then -b.vel.z * bounceRestitution else b.vel.z) ∧
      (enforceBody hw hh m b).vel.y = b.vel.y := by
  intro hw hh m b hmw hmh
  have hxle : -hw + m ≤ hw - m := by linarith
  have hzle : -hh + m ≤ hh - m := by linarith
  have ex := correctedCoord_eq_clamp (-hw + m) (hw - m) b.pos.x hxle
  have ez := correctedCoord_eq_clamp (-hh + m) (hh - m) b.pos.z hzle
  have nx := correctedCoord_ne (-hw + m) (hw - m) b.pos.x hxle
  have nz := correctedCoord_ne (-hh + m) (hh - m) b.pos.z hzle
  by_cases cx : b.pos.x < -hw + m ∨ b.pos.x > hw - m <;>
    by_cases cz : b.pos.z < -hh + m ∨ b.pos.z > hh - m
  · simp only [enforceBody, cx, cz, true_or, or_true, if_true, ite_true]
    exact ⟨ex, ez, trivial, by rw [if_pos (nx.1 cx)], by rw [if_pos (nz.1 cz)],
      trivial⟩
  · simp only [enforceBody, cx, cz, true_or, or_true, false_or, or_false,
      if_true, ite_true, if_false, ite_false]
    exact ⟨ex, ez, trivial, by rw [if_pos (nx.1 cx)],
      by rw [nz.2 cz]; simp, trivial⟩
  · simp only [enforceBody, cx, cz, true_or, or_true, false_or, or_false,
      if_true, ite_true, if_false, ite_false]
    exact ⟨ex, ez, trivial, by rw [nx.2 cx]; simp,
      by rw [if_pos (nz.1 cz)], trivial⟩
  · simp only [enforceBody, cx, cz, false_or, or_false, if_false, ite_false]
    exact ⟨by rw [← ex, nx.2 cx], by rw [← ez, nz.2 cz], trivial, trivial, trivial, trivial⟩
theorem boundary_clamp_and_bounce_witness :
    ((1 : ℚ)/10 ≤ 1 ∧ (1 : ℚ)/10 ≤ 1) ∧
    ((enforceBody 1 1 (1/10) ⟨⟨19/20, 0, 0⟩, ⟨1, 2, 3⟩⟩).pos.x =
        max (-1 + 1/10) (min (1 - 1/10) (19/20)) ∧
      (enforceBody 1 1 (1/10) ⟨⟨19/20, 0, 0⟩, ⟨1, 2, 3⟩⟩).pos.z =
        max (-1 + 1/10) (min (1 - 1/10) 0) ∧
      (enforceBody 1 1 (1/10) ⟨⟨19/20, 0, 0⟩, ⟨1, 2, 3⟩⟩).pos.y = 0 ∧
      (enforceBody 1 1 (1/10) ⟨⟨19/20, 0, 0⟩, ⟨1, 2, 3⟩⟩).vel.x =
        (if (19/20 : ℚ) < -1 + 1/10 ∨ (19/20 : ℚ) > 1 - 1/10
         then -1 * bounceRestitution else 1) ∧
      (enforceBody 1 1 (1/10) ⟨⟨19/20, 0, 0⟩, ⟨1, 2, 3⟩⟩).vel.z =
        (if (0 : ℚ) < -1 + 1/10 ∨ (0 : ℚ) > 1 - 1/10
         then -3 * bounceRestitution else 3) ∧
      (enforceBody 1 1 (1/10) ⟨⟨19/20, 0, 0⟩, ⟨1, 2, 3⟩⟩).vel.y = 2) ∧
    (enforceBody 1 1 (1/10) ⟨⟨19/20, 0, 0⟩, ⟨1, 2, 3⟩⟩).pos.x = 9/10 ∧
    (enforceBody 1 1 (1/10) ⟨⟨19/20, 0, 0⟩, ⟨1, 2, 3⟩⟩).vel.x = -(1/2) :=
  ⟨⟨by with_unfolding_all decide, by with_unfolding_all decide⟩,
    boundary_clamp_and_bounce 1 1 (1/10) ⟨⟨19/20, 0, 0⟩, ⟨1, 2, 3⟩⟩
      (by with_unfolding_all decide) (by with_unfolding_all decide),
    by with_unfolding_all decide, by with_unfolding_all decide⟩

/-- C8: a body sitting exactly at the clamp limit (`halfExtent - margin` on
both horizontal axes) with zero velocity is a fixed point of the enforcement
pass — any number of passes leaves position and velocity unchanged. -/
theorem boundary_fixed_point :
    ∀ (hw hh m yy : ℚ) (n : ℕ), m ≤ hw → m ≤ hh →
      (enforceBody hw hh m)^[n] ⟨⟨hw - m, yy, hh - m⟩, ⟨0, 0, 0⟩⟩ =
        ⟨⟨hw - m, yy, hh - m⟩, ⟨0, 0, 0⟩⟩ := by
  intro hw hh m yy n hmw hmh
  have hfix : enforceBody hw hh m ⟨⟨hw - m, yy, hh - m⟩, ⟨0, 0, 0⟩⟩ =
      ⟨⟨hw - m, yy, hh - m⟩, ⟨0, 0, 0⟩⟩ := by
    have h1 : ¬(((hw - m : ℚ) < -hw + m ∨ (hw - m : ℚ) > hw - m) ∨
        ((hh - m : ℚ) < -hh + m ∨ (hh - m : ℚ) > hh - m)) := by
      push_neg
      exact ⟨⟨by linarith, le_refl _⟩, by linarith, le_refl _⟩
    unfold enforceBody
    rw [if_neg h1]
  exact Function.iterate_fixed hfix n

theorem boundary_fixed_point_witness :
    ((1 : ℚ)/10 ≤ 1 ∧ (1 : ℚ)/10 ≤ 1) ∧
    (enforceBody 1 1 (1/10))^[3] ⟨⟨1 - 1/10, 0, 1 - 1/10⟩, ⟨0, 0, 0⟩⟩ =
      ⟨⟨1 - 1/10, 0, 1 - 1/10⟩, ⟨0, 0, 0⟩⟩ :=
  ⟨⟨by with_unfolding_all decide, by with_unfolding_all decide⟩,
    boundary_fixed_point 1 1 (1/10) 0 3 (by with_unfolding_all decide)
      (by with_unfolding_all decide)⟩

/-- C10: for every body found beyond the limit on either side of either
horizontal axis, one enforcement pass replaces that axis's velocity
component `v` by `-v * 0.5` with no condition on the sign of `v` — the
rebound is triggered by position overflow alone.  In particular a component
that already points back inside the region is reversed to point outward
again: beyond the upper limit with `v < 0` the new component is positive,
and beyond the lower limit with `v > 0` it is negative. -/
theorem boundary_rebound_ignores_velocity_sign :
    ∀ (hw hh m : ℚ) (b : BodyState), m ≤ hw → m ≤ hh →
      ((hw - m < b.pos.x ∨ b.pos.x < -hw + m) →
        (enforceBody hw hh m b).vel.x = -b.vel.x * bounceRestitution) ∧
      ((hh - m < b.pos.z ∨ b.pos.z < -hh + m) →
        (enforceBody hw hh m b).vel.z = -b.vel.z * bounceRestitution) ∧
      (hw - m < b.pos.x → b.vel.x < 0 → 0 < (enforceBody hw hh m b).vel.x) ∧
      (b.pos.x < -hw + m → 0 < b.vel.x → (enforceBody hw hh m b).vel.x < 0) ∧
      (hh - m < b.pos.z → b.vel.z < 0 → 0 < (enforceBody hw hh m b).vel.z) ∧
      (b.pos.z < -hh + m → 0 < b.vel.z → (enforceBody hw hh m b).vel.z < 0) := by
  intro hw hh m b hmw hmh
  have reflx : b.pos.x < -hw + m ∨ b.pos.x > hw - m →
      (enforceBody hw hh m b).vel.x = -b.vel.x * bounceRestitution := by
    intro hcx
    have hne : b.pos.x ≠ correctedCoord (-hw + m) (hw - m) b.pos.x :=
      (correctedCoord_ne _ _ _ (by linarith)).1 hcx
    simp only [enforceBody, hcx, true_or, or_true, if_true, ite_true]
    rw [if_pos hne]
  have reflz : b.pos.z < -hh + m ∨ b.pos.z > hh - m →
      (enforceBody hw hh m b).vel.z = -b.vel.z * bounceRestitution := by
    intro hcz
    have hne : b.pos.z ≠ correctedCoord (-hh + m) (hh - m) b.pos.z :=
      (correctedCoord_ne _ _ _ (by linarith)).1 hcz
    simp only [enforceBody, hcz, true_or, or_true, if_true, ite_true]
    rw [if_pos hne]
  refine ⟨?_, ?_, ?_, ?_, ?_, ?_⟩
  · intro hx
    exact reflx (hx.elim Or.inr Or.inl)
  · intro hz
    exact reflz (hz.elim Or.inr Or.inl)
  · intro h1 h2
    rw [reflx (Or.inr h1)]
    unfold bounceRestitution
    linarith
  · intro h1 h2
    rw [reflx (Or.inl h1)]
    unfold bounceRestitution
    linarith
  · intro h1 h2
    rw [reflz (Or.inr h1)]
    unfold bounceRestitution
    linarith
  · intro h1 h2
    rw [reflz (Or.inl h1)]
    unfold bounceRestitution
    linarith

/-- C10 witness: two concrete bodies with inward-pointing velocity — one
beyond the upper X limit with `vel.x = -1`, one beyond the lower Z limit
with `vel.z = 2`; both rebound to `-v * 0.5` (evaluated: `1/2` outward and
`-1` outward respectively). -/
theorem boundary_rebound_ignores_velocity_sign_witness :
    ((1 : ℚ)/10 ≤ 1 ∧ (1 : ℚ)/10 ≤ 1 ∧ (1 : ℚ) - 1/10 < 19/20 ∧
      (-1 : ℚ) < 0 ∧ (-19/20 : ℚ) < -1 + 1/10 ∧ (0 : ℚ) < 2) ∧
    ((enforceBody 1 1 (1/10) ⟨⟨19/20, 0, 0⟩, ⟨-1, 0, 0⟩⟩).vel.x =
        -(-1) * bounceRestitution ∧
      0 < (enforceBody 1 1 (1/10) ⟨⟨19/20, 0, 0⟩, ⟨-1, 0, 0⟩⟩).vel.x) ∧
    ((enforceBody 1 1 (1/10) ⟨⟨0, 0, -19/20⟩, ⟨0, 0, 2⟩⟩).vel.z =
        -2 * bounceRestitution ∧
      (enforceBody 1 1 (1/10) ⟨⟨0, 0, -19/20⟩, ⟨0, 0, 2⟩⟩).vel.z < 0) ∧
    (enforceBody 1 1 (1/10) ⟨⟨19/20, 0, 0⟩, ⟨-1, 0, 0⟩⟩).vel.x = 1/2 ∧
    (enforceBody 1 1 (1/10) ⟨⟨0, 0, -19/20⟩, ⟨0, 0, 2⟩⟩).vel.z = -1 :=
  ⟨⟨by with_unfolding_all decide, by with_unfolding_all decide,
      by with_unfolding_all decide, by with_unfolding_all decide,
      by with_unfolding_all decide, by with_unfolding_all decide⟩,
    ⟨(boundary_rebound_ignores_velocity_sign 1 1 (1/10)
          ⟨⟨19/20, 0, 0⟩, ⟨-1, 0, 0⟩⟩ (by with_unfolding_all decide)
          (by with_unfolding_all decide)).1
        (Or.inl (by with_unfolding_all decide)),
      (boundary_rebound_ignores_velocity_sign 1 1 (1/10)
          ⟨⟨19/20, 0, 0⟩, ⟨-1, 0, 0⟩⟩ (by with_unfolding_all decide)
          (by with_unfolding_all decide)).2.2.1
        (by with_unfolding_all decide) (by with_unfolding_all decide)⟩,
    ⟨(boundary_rebound_ignores_velocity_sign 1 1 (1/10)
          ⟨⟨0, 0, -19/20⟩, ⟨0, 0, 2⟩⟩ (by with_unfolding_all decide)
          (by with_unfolding_all decide)).2.1
        (Or.inr (by with_unfolding_all decide)),
      (boundary_rebound_ignores_velocity_sign 1 1 (1/10)
          ⟨⟨0, 0, -19/20⟩, ⟨0, 0, 2⟩⟩ (by with_unfolding_all decide)
          (by with_unfolding_all decide)).2.2.2.2.2
        (by with_unfolding_all decide) (by with_unfolding_all decide)⟩,
    by with_unfolding_all decide, by with_unfolding_all decide⟩
/-! ### Velocity tracker (`src/input/PointerVelocityTracker.ts`, current
iteration: 12 samples, 120 ms window, exponentially weighted pairwise
velocities)

Positions and times are reals here because the source computes `Math.exp`
and `Math.sqrt`.  Vector operations mirror three.js `Vector3`. -/

@[ext]
structure Vec3 where
  x : ℝ
  y : ℝ
  z : ℝ

def vzero : Vec3 := ⟨0, 0, 0⟩

noncomputable def vadd (a b : Vec3) : Vec3 := ⟨a.x + b.x, a.y + b.y, a.z + b.z⟩

noncomputable def vsub (a b : Vec3) : Vec3 := ⟨a.x - b.x, a.y - b.y, a.z - b.z⟩

noncomputable def vsmul (c : ℝ) (v : Vec3) : Vec3 := ⟨c * v.x, c * v.y, c * v.z⟩

noncomputable def vdiv (v : Vec3) (c : ℝ) : Vec3 := ⟨v.x / c, v.y / c, v.z / c⟩

noncomputable def vsum (l : List Vec3) : Vec3 := l.foldr vadd vzero

@[simp] theorem vadd_x (a b : Vec3) : (vadd a b).x = a.x + b.x := rfl

@[simp] theorem vadd_y (a b : Vec3) : (vadd a b).y = a.y + b.y := rfl

@[simp] theorem vadd_z (a b : Vec3) : (vadd a b).z = a.z + b.z := rfl

@[simp] theorem vsmul_x (c : ℝ) (v : Vec3) : (vsmul c v).x = c * v.x := rfl

@[simp] theorem vsmul_y (c : ℝ) (v : Vec3) : (vsmul c v).y = c * v.y := rfl

@[simp] theorem vsmul_z (c : ℝ) (v : Vec3) : (vsmul c v).z = c * v.z := rfl

@[simp] theorem vzero_x : vzero.x = 0 := rfl

@[simp] theorem vzero_y : vzero.y = 0 := rfl

@[simp] theorem vzero_z : vzero.z = 0 := rfl

@[simp] theorem vsum_nil : vsum [] = vzero := rfl

@[simp] theorem vsum_cons (v : Vec3) (l : List Vec3) :
    vsum (v :: l) = vadd v (vsum l) := rfl

/-- One tracked pointer sample (`addSample` clones the position and stamps it
with `performance.now()`). -/
structure Sample where
  position : Vec3
  timestamp : ℝ

/-- The max sample age: `maxAge = 120` ms in the current tracker iteration. -/
def trackerMaxAge : ℝ := 120

/-- The tracker weights the pair ending at a sample of age `age` by
`Math.exp(-age / 30)`. -/
noncomputable def sampleWeight (age : ℝ) : ℝ := Real.exp (-age / 30)

/-- The `samples.filter((s) => now - s.timestamp < this.maxAge)` step. -/
noncomputable def recentSamples (now : ℝ) : List Sample → List Sample
  | [] => []
  | s :: rest =>
    if now - s.timestamp < trackerMaxAge then s :: recentSamples now rest
    else recentSamples now rest

/-- The loop of `getVelocity` that builds the parallel `velocities` and
`weights` arrays: for each adjacent pair with `deltaTime > 0`, the pairwise
velocity `Δposition / Δtime` (seconds) paired with its weight; pairs with
non-positive `deltaTime` are skipped (never a division by zero). -/
noncomputable def pairVW (now : ℝ) : List Sample → List (Vec3 × ℝ)
  | prev :: curr :: rest =>
    let dt := (curr.timestamp - prev.timestamp) / 1000
    if dt > 0 then
      (vdiv (vsub curr.position prev.position) dt,
        sampleWeight (now - curr.timestamp)) :: pairVW now (curr :: rest)
    else pairVW now (curr :: rest)
  | _ => []

/-- Model of `PointerVelocityTracker.hasEnoughSamples`: the raw stored-sample count,
with no age filtering. -/
def hasEnoughSamples (samples : List Sample) : Bool :=
  decide (2 ≤ samples.length)

/-- Model of `PointerVelocityTracker.getVelocity`: filter to the max-age window,
return zero below 2 samples, build the weighted pairwise velocities, return
zero if none survived, else accumulate `velocities[i] * (weights[i] /
totalWeight)`. -/
noncomputable def getVelocity (samples : List Sample) (now : ℝ) : Vec3 :=
  let recent := recentSamples now samples
  if recent.length < 2 then vzero
  else
    let vw := pairVW now recent
    if vw.length = 0 then vzero
    else
      let totalWeight := (vw.map Prod.snd).sum
      vw.foldl (fun acc p => vadd acc (vsmul (p.2 / totalWeight) p.1)) vzero

/-- The adjacent pairs as the specification words them: zip the recent
samples with their own tail, keep the pairs with positive time delta, and
map each to its `Δposition/Δtime` velocity weighted by
`exp(-age / decayConstant)` of the age of the later sample. -/
noncomputable def specPairVW (now : ℝ) (l : List Sample) : List (Vec3 × ℝ) :=
  ((l.zip l.tail).filter
      (fun pc => decide (0 < (pc.2.timestamp - pc.1.timestamp) / 1000))).map
    (fun pc =>
      (vdiv (vsub pc.2.position pc.1.position)
          ((pc.2.timestamp - pc.1.timestamp) / 1000),
        sampleWeight (now - pc.2.timestamp)))

/-- The velocity estimate as the specification describes it: zero when fewer
than 2 samples survive the max-age window, otherwise the weighted mean
`(Σ wᵢ·vᵢ) / (Σ wᵢ)` of the per-adjacent-pair velocities.  (When every pair
is skipped both weight sums are empty and the scale `1/0 = 0` yields the
zero vector, matching the source's explicit zero return.) -/
noncomputable def specVelocity (samples : List Sample) (now : ℝ) : Vec3 :=
  let recent := recentSamples now samples
  if recent.length < 2 then vzero
  else
    let vw := specPairVW now recent
    vsmul (1 / (vw.map Prod.snd).sum)
      (vsum (vw.map (fun p => vsmul p.2 p.1)))

theorem pairVW_eq_specPairVW (now : ℝ) (l : List Sample) :
    pairVW now l = specPairVW now l := by
  induction l with
  | nil => rfl
  | cons a tl ih =>
    cases tl with
    | nil => rfl
    | cons b rest =>
      rw [pairVW]
      by_cases hdt : (0 : ℝ) < (b.timestamp - a.timestamp) / 1000
      · rw [if_pos hdt, ih]
        simp only [specPairVW, List.zip_cons_cons, List.tail_cons,
          List.filter_cons, decide_eq_true_eq, hdt, ite_true, if_true,
          List.map_cons]
      · rw [if_neg hdt, ih]
        simp only [specPairVW, List.zip_cons_cons, List.tail_cons,
          List.filter_cons, decide_eq_true_eq, hdt, ite_false, if_false,
          List.map_cons]

theorem foldl_weighted (W : ℝ) (l : List (Vec3 × ℝ)) :
    ∀ init : Vec3,
      l.foldl (fun acc p => vadd acc (vsmul (p.2 / W) p.1)) init =
        vadd init (vsmul (1 / W) (vsum (l.map (fun p => vsmul p.2 p.1)))) := by
  induction l with
  | nil => intro init; apply Vec3.ext <;> simp
  | cons hd tl ih =>
    intro init
    simp only [List.foldl_cons, List.map_cons, vsum_cons]
    rw [ih]
    apply Vec3.ext <;> simp <;> ring

/-- C4: `getVelocity` returns exactly the specification's recency-weighted
mean of per-adjacent-pair velocities — pairwise `Δposition/Δtime` over the
max-age-filtered samples, weights `exp(-age/30)`, zero-Δt pairs skipped, and
the zero vector whenever fewer than 2 samples survive the window. -/
theorem getVelocity_weighted_mean :
    ∀ (samples : List Sample) (now : ℝ),
      getVelocity samples now = specVelocity samples now := by
  intro samples now
  simp only [getVelocity, specVelocity, pairVW_eq_specPairVW]
  by_cases h2 : (recentSamples now samples).length < 2
  · simp [h2]
  · simp only [h2, if_false, ite_false]
    by_cases h0 : (specPairVW now (recentSamples now samples)).length = 0
    · rw [if_pos h0]
      rw [List.length_eq_zero.mp h0]
      apply Vec3.ext <;> simp
    · rw [if_neg h0, foldl_weighted]
      apply Vec3.ext <;> simp

/-! ### Throw impulse on release (`useDraggableObject.handlePointerUp`,
`wasDragging` branch)

On a drag-ending pointer-up the source switches the body to dynamic, then —
if `hasEnoughSamples()` — reads `getVelocity()`, zeroes its Y component,
compares the speed against `minThrowSpeed`, optionally renormalizes to
`maxThrowSpeed`, multiplies by the mass estimate `0.8` and applies the
impulse with a zero Y component.  `releaseThrow` returns the applied impulse
(`none` when no impulse is applied). -/

def zeroY (v : Vec3) : Vec3 := ⟨v.x, 0, v.z⟩

/-- Length of a vector, three.js `Vector3.length`. -/
noncomputable def vlength (v : Vec3) : ℝ :=
  Real.sqrt (v.x ^ 2 + v.y ^ 2 + v.z ^ 2)

/-- Normalization, three.js `Vector3.normalize`: `divideScalar(this.length() || 1)`. -/
noncomputable def vnormalize (v : Vec3) : Vec3 :=
  vdiv v (if vlength v = 0 then 1 else vlength v)

noncomputable def releaseThrow (samples : List Sample)
    (now minThrowSpeed maxThrowSpeed : ℝ) : Option Vec3 :=
  if hasEnoughSamples samples then
    let velocity := zeroY (getVelocity samples now)
    let speed := vlength velocity
    if speed > minThrowSpeed then
      let v := if speed > maxThrowSpeed then
          vsmul maxThrowSpeed (vnormalize velocity)
        else velocity
      let impulse := vsmul (0.8 : ℝ) v
      some ⟨impulse.x, 0, impulse.z⟩
    else none
  else none

/-- Clamping a vector's magnitude, as the specification words it. -/
noncomputable def clampToMaxSpeed (v : Vec3) (maxSpeed : ℝ) : Vec3 :=
  if vlength v > maxSpeed then vsmul (maxSpeed / vlength v) v else v

/-- The release rule as the specification words it: an impulse equal to the
(horizontal, vertical component zeroed) estimated velocity clamped to
`maxThrowSpeed` and multiplied by the mass constant, applied exactly when at
least 2 samples are stored and the estimated speed strictly exceeds
`minThrowSpeed`. -/
noncomputable def specThrow (samples : List Sample)
    (now minThrowSpeed maxThrowSpeed : ℝ) : Option Vec3 :=
  if 2 ≤ samples.length ∧
      vlength (zeroY (getVelocity samples now)) > minThrowSpeed then
    some (vsmul (0.8 : ℝ)
      (clampToMaxSpeed (zeroY (getVelocity samples now)) maxThrowSpeed))
  else none

theorem vlength_eq_zero_iff (v : Vec3) : vlength v = 0 ↔ v = vzero := by
  constructor
  · intro h
    have hsum : v.x ^ 2 + v.y ^ 2 + v.z ^ 2 ≤ 0 := by
      by_contra hlt
      push_neg at hlt
      have := Real.sqrt_pos.mpr hlt
      rw [vlength] at h
      linarith
    have hx : v.x = 0 := by nlinarith [sq_nonneg v.x, sq_nonneg v.y, sq_nonneg v.z]
    have hy : v.y = 0 := by nlinarith [sq_nonneg v.x, sq_nonneg v.y, sq_nonneg v.z]
    have hz : v.z = 0 := by nlinarith [sq_nonneg v.x, sq_nonneg v.y, sq_nonneg v.z]
    exact Vec3.ext hx hy hz
  · intro h
    rw [h]
    simp [vlength, vzero]

theorem vsmul_vnormalize (c : ℝ) (v : Vec3) :
    vsmul c (vnormalize v) = vsmul (c / vlength v) v := by
  unfold vnormalize vdiv
  by_cases h0 : vlength v = 0
  · have hv : v = vzero := (vlength_eq_zero_iff v).mp h0
    rw [if_pos h0, h0, hv]
    apply Vec3.ext <;> simp
  · rw [if_neg h0]
    apply Vec3.ext <;> simp <;> ring

/-- C3: the source's release logic coincides with the specification's rule —
the impulse is `0.8 × (clamped horizontal velocity)` and is applied iff the
tracker stores at least 2 samples and the horizontal speed strictly exceeds
`minThrowSpeed` — and every pointer-up that is not swallowed by the lock
guard leaves the body in dynamic mode. -/
theorem throw_on_release :
    (∀ (samples : List Sample) (now minT maxT : ℝ),
       releaseThrow samples now minT maxT = specThrow samples now minT maxT) ∧
    (∀ (c : GestureConfig) (oid : String) (now : ℚ) (pid : Nat)
       (w : DragWorld),
       handlePointerUp c oid now pid w = w ∨
       (handlePointerUp c oid now pid w).2.bodyType = BodyType.dynamic) := by
  constructor
  · intro samples now minT maxT
    simp only [releaseThrow, specThrow, hasEnoughSamples]
    by_cases hn : 2 ≤ samples.length
    · by_cases hmin : vlength (zeroY (getVelocity samples now)) > minT
      · by_cases hmax : vlength (zeroY (getVelocity samples now)) > maxT
        · simp only [hn, hmin, hmax, decide_True, if_true, ite_true,
            true_and, and_true, clampToMaxSpeed, vsmul_vnormalize]
          apply congrArg
          apply Vec3.ext <;> simp [zeroY]
        · simp only [hn, hmin, hmax, decide_True, if_true, ite_true,
            if_false, ite_false, true_and, and_true, clampToMaxSpeed]
          apply congrArg
          apply Vec3.ext <;> simp [zeroY]
      · simp [hn, hmin]
    · simp [hn]
  · intro c oid now pid w
    obtain ⟨st, d⟩ := w
    by_cases hg : st.draggingObjectId ≠ none ∧ st.draggingObjectId ≠ some oid
    · left
      simp [handlePointerUp, hg]
    · right
      simp [handlePointerUp, hg]

/-! ### Claim C9: stale samples pass `hasEnoughSamples` but yield no throw -/

/-- Two samples taken at t=0 and t=10; by t=500 both are far older than the
120 ms window. -/
noncomputable def staleSamples : List Sample :=
  [⟨⟨0, 0, 0⟩, 0⟩, ⟨⟨1, 0, 0⟩, 10⟩]

/-- C9: `hasEnoughSamples` counts raw stored samples with no age filter, so
in this stale state it reports `true` while `getVelocity` (whose max-age
filter drops every sample) returns the zero vector; a drag release in this
state passes the enough-samples check yet applies no impulse, because the
zero speed is below `minThrowSpeed = 0.1`. -/
theorem stale_samples_enough_but_no_throw :
    hasEnoughSamples staleSamples = true ∧
    getVelocity staleSamples 500 = vzero ∧
    releaseThrow staleSamples 500 (1/10) 5 = none := by
  have hrec : recentSamples 500 staleSamples = [] := by
    simp only [staleSamples, recentSamples]
    norm_num [trackerMaxAge]
  have hv : getVelocity staleSamples 500 = vzero := by
    simp [getVelocity, hrec]
  have hlen : vlength (zeroY vzero) = 0 := by
    simp [vlength, zeroY, vzero]
  refine ⟨rfl, hv, ?_⟩
  simp only [releaseThrow, hv, hlen]
  norm_num [hasEnoughSamples, staleSamples]

end BumpTop
